import Mathlib

/-
Shallow embedding of the core of the ReinforceUI-Studio repository:
the training orchestration loop (RL_loops/training_policy_loop.py),
the worker-thread wrapper (GUI/ui_utils.py), and the DQN / DDPG / SAC
agents (RL_algorithms/...). Network forward passes and gradient/optimizer
steps are abstracted as function parameters; parameter tensors are lists
of rationals; machine reals are modelled by the rationals.
-/

namespace ReinforceUI

/-! ### Exploration schedule

Embeds lines 120 and 152-153 of RL_loops/training_policy_loop.py:
the running rate starts at 1; each decay application multiplies by
epsilon_decay and then clamps from below at epsilon_min. -/

/-- One decay application of the DQN exploration schedule, as written in
the source: `exploration_rate *= epsilon_decay` followed by
`exploration_rate = max(epsilon_min, exploration_rate)`. -/
def epsilonStep (epsilon_min epsilon_decay rate : ℚ) : ℚ :=
  max epsilon_min (rate * epsilon_decay)

/-- The exploration rate after k decay applications, starting from the
initial value 1 set at line 120 of the source. -/
def explorationRateAfter (epsilon_min epsilon_decay : ℚ) : ℕ → ℚ
  | 0 => 1
  | k + 1 => epsilonStep epsilon_min epsilon_decay
      (explorationRateAfter epsilon_min epsilon_decay k)

/-! ### The training loop

Embeds `training_loop` of RL_loops/training_policy_loop.py as a trace
producing state machine. The three action-selection and training-cadence
families are dispatched from the algorithm name exactly as in the source
(`is_ppo`, `is_dqn`, else-branch). Action values, environment states and
rewards do not influence any verified property, so action selection and
the environment step are abstracted; the done-or-truncated signal of
`env.step` is a boolean function of the step index. The replay memory is
modelled through the Memory Contract as an append-only store, tracked by
its size. -/

inductive Family
  | ppo | dqn | generic
deriving DecidableEq, Repr

/-- Observable events of one run of the loop, in chronological order. -/
inductive Event
  /-- memory.add_experience was called; the field records the number of
  transitions the memory holds right after the call. -/
  | addExperience (memSizeAfter : ℕ)
  /-- rl_agent.train_policy was called; the field records the number of
  transitions the memory holds at the moment of the call. -/
  | trainUpdate (memSize : ℕ)
  /-- logger.save_checkpoint was called at 1-indexed step `step`. -/
  | saveCheckpoint (step : ℕ)
  /-- evaluate_policy_loop was invoked with the evaluation environment:
  `step` is the 0-indexed total_step_counter passed to it and `episodes`
  the configured number of evaluation episodes. -/
  | evalTrigger (step : ℕ) (episodes : ℕ)
  /-- logger.save_logs was called. -/
  | saveLogs
  /-- policy_loop_test, the post-training verification rollout, ran. -/
  | policyTest
  /-- training_completed_signal.emit was called with this flag. -/
  | emitCompleted (completed : Bool)
deriving DecidableEq, Repr

/-- The flat configuration read at the top of `training_loop`. -/
structure LoopConfig where
  steps_training : ℕ
  evaluation_interval : ℕ
  log_interval : ℕ
  number_eval_episodes : ℕ
  batch_size : ℕ
  steps_exploration : ℕ
  G : ℕ
  max_steps_per_batch : ℕ
  epsilon_min : ℚ
  epsilon_decay : ℚ
  family : Family

/-- The mutable state of the loop body. -/
structure LoopState where
  memorySize : ℕ
  exploration_rate : ℚ
  episode_timesteps : ℕ
  episode_num : ℕ
  training_completed : Bool
  events : List Event
deriving DecidableEq, Repr

/-- Initial loop state: empty memory, exploration_rate = 1, accumulators
at zero, training_completed preset to true (line 135). -/
def initialLoopState : LoopState :=
  { memorySize := 0
    exploration_rate := 1
    episode_timesteps := 0
    episode_num := 0
    training_completed := true
    events := [] }

/-- The update the action-selection section applies to the running
exploration rate at step t: only the DQN family past its exploration
phase decays and clamps the rate (lines 148-157); every other path
leaves it unchanged. -/
def selectActionRate (cfg : LoopConfig) (t : ℕ) (rate : ℚ) : ℚ :=
  if cfg.family = Family.dqn ∧ cfg.steps_exploration ≤ t then
    epsilonStep cfg.epsilon_min cfg.epsilon_decay rate
  else rate

/-- The train_policy calls issued at step t, given the memory size mem at
that moment (lines 178-192): PPO trains once every max_steps_per_batch
steps; DQN trains G times when t > batch_size; the generic off-policy
family trains G times when t >= steps_exploration. -/
def trainEvents (cfg : LoopConfig) (t : ℕ) (mem : ℕ) : List Event :=
  match cfg.family with
  | Family.ppo =>
      if (t + 1) % cfg.max_steps_per_batch = 0 then [Event.trainUpdate mem] else []
  | Family.dqn =>
      if cfg.batch_size < t then List.replicate cfg.G (Event.trainUpdate mem) else []
  | Family.generic =>
      if cfg.steps_exploration ≤ t then List.replicate cfg.G (Event.trainUpdate mem) else []

/-- All events of step t in chronological order: the add_experience call,
then the train_policy calls, then (on episode end at a log-interval
boundary) the checkpoint save, then the evaluation trigger when the
1-indexed completed-step count t+1 is a multiple of evaluation_interval
(lines 164-246). -/
def stepEvents (cfg : LoopConfig) (doneSignal : ℕ → Bool) (t : ℕ) (mem : ℕ) :
    List Event :=
  [Event.addExperience mem]
    ++ trainEvents cfg t mem
    ++ (if doneSignal t ∧ (t + 1) % cfg.log_interval = 0
        then [Event.saveCheckpoint (t + 1)] else [])
    ++ (if (t + 1) % cfg.evaluation_interval = 0
        then [Event.evalTrigger t cfg.number_eval_episodes] else [])

/-- One executed iteration of the loop body at step index t (lines
142-250): the per-episode step counter advances (resetting on episode
end), the exploration rate is updated by the action-selection section,
one transition is appended to the memory, and the step events are
appended to the trace. -/
def stepBody (cfg : LoopConfig) (doneSignal : ℕ → Bool) (t : ℕ) (s : LoopState) :
    LoopState :=
  { memorySize := s.memorySize + 1
    exploration_rate := selectActionRate cfg t s.exploration_rate
    episode_timesteps := if doneSignal t then 0 else s.episode_timesteps + 1
    episode_num := if doneSignal t then s.episode_num + 1 else s.episode_num
    training_completed := s.training_completed
    events := s.events ++ stepEvents cfg doneSignal t (s.memorySize + 1) }

/-- The iteration structure of lines 136-140: with k iterations left and
current step index t, the loop first reads is_running (modelled by
`poll t`, the value the check at line 137 observes at that iteration);
when it is false the loop marks the run incomplete and exits, otherwise
it executes the body and continues. -/
def runFrom (cfg : LoopConfig) (poll : ℕ → Bool) (doneSignal : ℕ → Bool) :
    ℕ → ℕ → LoopState → LoopState
  | 0, _, s => s
  | k + 1, t, s =>
      if poll t then
        runFrom cfg poll doneSignal k (t + 1) (stepBody cfg doneSignal t s)
      else { s with training_completed := false }

/-- The whole training_loop: run the step loop over the full budget, then
(lines 252-255, reached on both termination paths) flush the logs, run
the post-training policy verification rollout, and emit the completion
flag. -/
def training_loop (cfg : LoopConfig) (poll : ℕ → Bool) (doneSignal : ℕ → Bool) :
    LoopState :=
  let s := runFrom cfg poll doneSignal cfg.steps_training 0 initialLoopState
  { s with events := s.events ++
      [Event.saveLogs, Event.policyTest, Event.emitCompleted s.training_completed] }

/-- Tests whether an event is an add_experience call, hence marks one
executed simulation step. -/
def isAddExperience : Event → Bool
  | Event.addExperience _ => true
  | _ => false

/-- The number of simulation steps a finished run actually executed. -/
def executedSteps (s : LoopState) : ℕ :=
  (s.events.filter isAddExperience).length

/-- Boolean form of the memory invariant for a single event: every
train_policy call must see at least batch_size stored transitions. -/
def memOKb (batch_size : ℕ) : Event → Bool
  | Event.trainUpdate m => batch_size ≤ m
  | _ => true

/-! ### The worker thread

Embeds TrainingThread of GUI/ui_utils.py. Its `run` method passes the
boolean field `_is_running` to training_loop by value, so the poll the
loop performs each iteration observes the value the field had when `run`
started; `stop` only overwrites the field of the thread object. -/

structure TrainingThread where
  is_running : Bool
deriving DecidableEq, Repr

/-- TrainingThread.stop sets _is_running to False on the thread object. -/
def TrainingThread.stop (_th : TrainingThread) : TrainingThread :=
  { is_running := false }

/-- TrainingThread.run calls training_loop with is_running=self._is_running:
the boolean is captured by value at call time, so the per-iteration check
inside the loop always sees that captured constant. -/
def TrainingThread.run (th : TrainingThread) (cfg : LoopConfig)
    (doneSignal : ℕ → Bool) : LoopState :=
  training_loop cfg (fun _ => th.is_running) doneSignal

/-! ### The DQN agent

Embeds RL_algorithms/DQN/DQN.py. The parameter collection of the online
network is an abstract type; the gradient and optimizer step of one
train_policy call (sampling, loss, backward, optimiser.step, lines
76-107) is an abstract function `optStep` on it, since the verified
properties concern only the counter and the target synchronization of
lines 109-112. -/

structure DQNAgent (P : Type) where
  net : P
  target_net : P
  learn_counter : ℕ
  target_update_freq : ℕ

/-- One call to DQN.train_policy: the online network takes one gradient
step, learn_counter increments by one, and when the incremented counter
is an exact multiple of target_update_freq the target network is
overwritten with the state dict of the just-updated online network
(hard update, lines 109-112). -/
def DQN.train_policy {P : Type} (optStep : P → P) (a : DQNAgent P) : DQNAgent P :=
  if (a.learn_counter + 1) % a.target_update_freq = 0 then
    { a with
      net := optStep a.net
      target_net := optStep a.net
      learn_counter := a.learn_counter + 1 }
  else
    { a with net := optStep a.net, learn_counter := a.learn_counter + 1 }

/-- n successive train_policy calls, each with its own gradient step
(the sampled batches differ from call to call). -/
def DQN.trainN {P : Type} (optSteps : ℕ → P → P) (a : DQNAgent P) : ℕ → DQNAgent P
  | 0 => a
  | n + 1 => DQN.train_policy (optSteps n) (DQN.trainN optSteps a n)

/-! ### Soft target synchronization, DDPG and SAC agents

Parameter collections are lists of rationals, index-aligned between a
network and its target copy, as produced by iterating
`zip(net.parameters(), target_net.parameters())`. -/

/-- The soft update of DDPG lines 138-151 and SAC lines 190-197: each
target parameter is overwritten with tau * source + (1 - tau) * target,
elementwise over the aligned parameter collections. -/
def softUpdate (tau : ℚ) (source target : List ℚ) : List ℚ :=
  List.zipWith (fun p tp => tau * p + (1 - tau) * tp) source target

/-- The DDPG agent state (RL_algorithms/DDPG/DDPG.py). -/
structure DDPGAgent where
  actor_net : List ℚ
  critic_net : List ℚ
  target_actor_net : List ℚ
  target_critic_net : List ℚ
  tau : ℚ
deriving DecidableEq, Repr

/-- One call to DDPG.train_policy (lines 111-151): the critic and actor
take one gradient step each (abstracted as criticStep and actorStep),
then both target networks receive the soft update from the just-updated
online networks. -/
def DDPG.train_policy (criticStep actorStep : List ℚ → List ℚ) (a : DDPGAgent) :
    DDPGAgent :=
  let critic1 := criticStep a.critic_net
  let actor1 := actorStep a.actor_net
  { a with
    critic_net := critic1
    actor_net := actor1
    target_critic_net := softUpdate a.tau critic1 a.target_critic_net
    target_actor_net := softUpdate a.tau actor1 a.target_actor_net }

/-- The SAC agent state (RL_algorithms/SAC/SAC.py): actor, twin-critic
and target twin-critic parameter collections, the temperature scalar
log_alpha, the learning-step counter and the fixed hyperparameters set
in the constructor. -/
structure SACAgent where
  actor_net : List ℚ
  critic_net : List ℚ
  target_critic_net : List ℚ
  log_alpha : ℚ
  learn_counter : ℕ
  policy_update_freq : ℕ
  tau : ℚ
  gamma : ℚ
  reward_scale : ℚ
deriving DecidableEq, Repr

/-- One call to SAC.train_policy (lines 162-197): learn_counter
increments first, the critic, actor and temperature take one gradient
step each (abstracted), and when the incremented counter is a multiple
of policy_update_freq the target critic receives the soft update from
the just-updated critic. -/
def SAC.train_policy (criticStep actorStep : List ℚ → List ℚ)
    (alphaStep : ℚ → ℚ) (a : SACAgent) : SACAgent :=
  let lc := a.learn_counter + 1
  let critic1 := criticStep a.critic_net
  let actor1 := actorStep a.actor_net
  let la1 := alphaStep a.log_alpha
  { a with
    learn_counter := lc
    critic_net := critic1
    actor_net := actor1
    log_alpha := la1
    target_critic_net :=
      if lc % a.policy_update_freq = 0 then
        softUpdate a.tau critic1 a.target_critic_net
      else a.target_critic_net }

/-! ### The SAC critic update

Embeds SAC._update_critic (lines 101-138) over a batch. States and
actions are abstract types; the actor forward pass returns, per state,
the sampled action, its log-probability and the distribution mean (the
3-tuple the source destructures); each critic forward pass returns the
pair of twin Q-values. The temperature alpha stands for
exp(log_alpha), which the source reads through the `alpha` property.
Batched tensor operations become maps and zips over the batch lists. -/

/-- Mean-squared-error loss of functional.mse_loss over aligned lists. -/
def mseLoss (pred target : List ℚ) : ℚ :=
  (List.zipWith (fun a b => (a - b) ^ 2) pred target).sum / pred.length

/-- The no_grad block of _update_critic: per batch element, resample the
next action and its log-probability from the current actor at the next
state, query the target twin critic there, take the minimum of the two
target Q-values and subtract alpha times the log-probability. -/
def SAC.targetQValues {S A : Type} (actor_net : S → A × ℚ × A)
    (target_critic_net : S → A → ℚ × ℚ) (alpha : ℚ)
    (next_states : List S) : List ℚ :=
  next_states.map (fun ns =>
    let pr := actor_net ns
    let q := target_critic_net ns pr.1
    min q.1 q.2 - alpha * pr.2.1)

/-- The bootstrap targets of _update_critic:
rewards * reward_scale + gamma * (1 - dones) * target_q_values. -/
def SAC.qTarget (gamma reward_scale : ℚ) (rewards dones : List ℚ)
    (target_q_values : List ℚ) : List ℚ :=
  List.zipWith (fun rd tq => rd.1 * reward_scale + gamma * (1 - rd.2) * tq)
    (List.zip rewards dones) target_q_values

/-- The whole _update_critic call: computes the shared bootstrap target,
evaluates both online critics on the batch, forms the two mean-squared
error losses and their sum, and applies one optimizer step (abstracted
as optStep, driven by the total loss) to the critic parameters. Returns
the new critic parameters, the loss triple, and the target list. -/
def SAC.update_critic {S A : Type} (actor_net : S → A × ℚ × A)
    (critic_net : S → A → ℚ × ℚ) (target_critic_net : S → A → ℚ × ℚ)
    (alpha gamma reward_scale : ℚ) (optStep : List ℚ → ℚ → List ℚ)
    (critic_params : List ℚ)
    (states : List S) (actions : List A) (rewards : List ℚ)
    (next_states : List S) (dones : List ℚ) :
    List ℚ × (ℚ × ℚ × ℚ) × List ℚ :=
  let target_q_values := SAC.targetQValues actor_net target_critic_net alpha next_states
  let q_target := SAC.qTarget gamma reward_scale rewards dones target_q_values
  let qs := List.zipWith critic_net states actions
  let q_values_one := qs.map Prod.fst
  let q_values_two := qs.map Prod.snd
  let critic_loss_one := mseLoss q_values_one q_target
  let critic_loss_two := mseLoss q_values_two q_target
  let critic_loss_total := critic_loss_one + critic_loss_two
  (optStep critic_params critic_loss_total,
   (critic_loss_one, critic_loss_two, critic_loss_total), q_target)

/-! ### Persistence

Embeds save_models and load_models of the three agents over an explicit
file-system state. torch.save / torch.load and os.path.exists /
os.makedirs are the only file-system operations the source performs;
they are modelled as total functions on this state, with torch.load
failing (raising) when the file is absent. -/

structure FileSystem where
  files : List (String × List ℚ)
  dirs : List String
deriving DecidableEq, Repr

/-- Models torch.load: returns the stored tensor data when the file
exists and raises a FileNotFoundError (the error value carries the
offending path) otherwise; it never substitutes defaults. -/
def torch_load (fs : FileSystem) (path : String) : Except String (List ℚ) :=
  match fs.files.lookup path with
  | some p => Except.ok p
  | none => Except.error path

/-- Models the save-side recovery sequence `if not os.path.exists(filepath):
os.makedirs(filepath)` of every save_models. -/
def ensureDir (fs : FileSystem) (path : String) : FileSystem :=
  if path ∈ fs.dirs then fs else { fs with dirs := path :: fs.dirs }

/-- Models torch.save of one state dict at a path. -/
def writeFile (fs : FileSystem) (path : String) (content : List ℚ) : FileSystem :=
  { fs with files := (path, content) :: fs.files }

/-- The directory-recovery step never touches the stored files. -/
theorem ensureDir_files (fs : FileSystem) (p : String) :
    (ensureDir fs p).files = fs.files := by
  unfold ensureDir
  split <;> rfl

/-- DQN.save_models (lines 114-124): create the directory when missing,
then save the online network under filepath/filename_net.pth. -/
def DQN.save_models (a : DQNAgent (List ℚ)) (filename filepath : String)
    (fs : FileSystem) : FileSystem :=
  writeFile (ensureDir fs filepath) (filepath ++ "/" ++ filename ++ "_net.pth") a.net

/-- DQN.load_models (lines 126-140): load the online network state dict
from filepath/filename_net.pth; a missing file raises. -/
def DQN.load_models (a : DQNAgent (List ℚ)) (filename filepath : String)
    (fs : FileSystem) : Except String (DQNAgent (List ℚ)) :=
  match torch_load fs (filepath ++ "/" ++ filename ++ "_net.pth") with
  | Except.ok p => Except.ok { a with net := p }
  | Except.error e => Except.error e

/-- DDPG.save_models (lines 153-169): create the directory when missing,
then save actor and critic under filepath/filename_actor.pht and
filepath/filename_critic.pht. -/
def DDPG.save_models (a : DDPGAgent) (filename filepath : String)
    (fs : FileSystem) : FileSystem :=
  let fs1 := ensureDir fs filepath
  let fs2 := writeFile fs1 (filepath ++ "/" ++ filename ++ "_actor.pht") a.actor_net
  writeFile fs2 (filepath ++ "/" ++ filename ++ "_critic.pht") a.critic_net

/-- DDPG.load_models (lines 171-191): load the actor state dict, then
the critic state dict; a missing file raises. -/
def DDPG.load_models (a : DDPGAgent) (filename filepath : String)
    (fs : FileSystem) : Except String DDPGAgent :=
  match torch_load fs (filepath ++ "/" ++ filename ++ "_actor.pht") with
  | Except.error e => Except.error e
  | Except.ok ap =>
      match torch_load fs (filepath ++ "/" ++ filename ++ "_critic.pht") with
      | Except.error e => Except.error e
      | Except.ok cp => Except.ok { a with actor_net := ap, critic_net := cp }

/-- SAC.save_models (lines 199-215): create the directory when missing,
then save actor and critic under filepath/filename_actor.pht and
filepath/filename_critic.pht; nothing else is persisted. -/
def SAC.save_models (a : SACAgent) (filename filepath : String)
    (fs : FileSystem) : FileSystem :=
  let fs1 := ensureDir fs filepath
  let fs2 := writeFile fs1 (filepath ++ "/" ++ filename ++ "_actor.pht") a.actor_net
  writeFile fs2 (filepath ++ "/" ++ filename ++ "_critic.pht") a.critic_net

/-- SAC.load_models (lines 217-238): load the actor state dict, then the
critic state dict; the target critic and log_alpha are not touched; a
missing file raises. -/
def SAC.load_models (a : SACAgent) (filename filepath : String)
    (fs : FileSystem) : Except String SACAgent :=
  match torch_load fs (filepath ++ "/" ++ filename ++ "_actor.pht") with
  | Except.error e => Except.error e
  | Except.ok ap =>
      match torch_load fs (filepath ++ "/" ++ filename ++ "_critic.pht") with
      | Except.error e => Except.error e
      | Except.ok cp => Except.ok { a with actor_net := ap, critic_net := cp }

/-! ### Evaluation-record deduplication

Embeds the groupby("Total Timesteps").last() call of lines 243-245: a
record list keyed by global timestep keeps, per distinct timestep, only
the most recently observed record. -/

/-- Deduplication by timestep key, keeping the last record per key: a
record is dropped exactly when a later record shares its key. -/
def groupLast : List (ℕ × ℚ) → List (ℕ × ℚ)
  | [] => []
  | r :: rest =>
      if r.1 ∈ rest.map Prod.fst then groupLast rest else r :: groupLast rest

/-! ### Helper lemmas -/

/-- The exploration rate of the loop state is threaded through runFrom
exactly as the decay recurrence prescribes: entering step t, the rate
equals the recurrence value after t - steps_exploration applications. -/
theorem runFrom_rate (cfg : LoopConfig) (poll dsig : ℕ → Bool)
    (hfam : cfg.family = Family.dqn) (hpoll : ∀ t, poll t = true) :
    ∀ (k t : ℕ) (s : LoopState),
      s.exploration_rate
        = explorationRateAfter cfg.epsilon_min cfg.epsilon_decay
            (t - cfg.steps_exploration) →
      (runFrom cfg poll dsig k t s).exploration_rate
        = explorationRateAfter cfg.epsilon_min cfg.epsilon_decay
            (t + k - cfg.steps_exploration) := by
  intro k
  induction k with
  | zero => intro t s h; simpa [runFrom] using h
  | succ k ih =>
    intro t s h
    rw [runFrom, if_pos (hpoll t)]
    have harith : t + 1 + k - cfg.steps_exploration
        = t + (k + 1) - cfg.steps_exploration := by omega
    rw [← harith]
    apply ih
    show selectActionRate cfg t s.exploration_rate
      = explorationRateAfter cfg.epsilon_min cfg.epsilon_decay
          (t + 1 - cfg.steps_exploration)
    unfold selectActionRate
    by_cases hse : cfg.steps_exploration ≤ t
    · rw [if_pos ⟨hfam, hse⟩, h]
      have : t + 1 - cfg.steps_exploration = (t - cfg.steps_exploration) + 1 := by
        omega
      rw [this, explorationRateAfter]
    · rw [if_neg (by tauto), h]
      have : t + 1 - cfg.steps_exploration = t - cfg.steps_exploration := by omega
      rw [this]

/-- The loop body never touches the completion flag. -/
theorem stepBody_completed (cfg : LoopConfig) (dsig : ℕ → Bool) (t : ℕ)
    (s : LoopState) :
    (stepBody cfg dsig t s).training_completed = s.training_completed := rfl

/-- The completion flag survives the step loop exactly when every polled
iteration saw the running flag true. -/
theorem runFrom_completed (cfg : LoopConfig) (poll dsig : ℕ → Bool) :
    ∀ (k t : ℕ) (s : LoopState),
      ((runFrom cfg poll dsig k t s).training_completed = true ↔
        (s.training_completed = true
          ∧ ∀ j, t ≤ j → j < t + k → poll j = true)) := by
  intro k
  induction k with
  | zero =>
    intro t s
    constructor
    · intro hc
      exact ⟨hc, fun j h1 h2 => absurd h2 (by omega)⟩
    · intro hc
      exact hc.1
  | succ k ih =>
    intro t s
    rw [runFrom]
    by_cases hp : poll t
    · rw [if_pos hp, ih (t + 1) (stepBody cfg dsig t s), stepBody_completed]
      constructor
      · rintro ⟨h1, h2⟩
        refine ⟨h1, fun j hj1 hj2 => ?_⟩
        rcases eq_or_lt_of_le hj1 with heq | hlt
        · rw [← heq]; exact hp
        · exact h2 j (by omega) (by omega)
      · rintro ⟨h1, h2⟩
        exact ⟨h1, fun j hj1 hj2 => h2 j (by omega) (by omega)⟩
    · rw [if_neg hp]
      constructor
      · intro hc
        exact absurd hc (by simp)
      · rintro ⟨h1, h2⟩
        exact absurd (h2 t (le_refl t) (by omega)) (by simpa using hp)

/-- The number of consecutive successful polls, starting at index t with
k iterations left: how many iterations the loop actually executes. -/
def pollRun (poll : ℕ → Bool) : ℕ → ℕ → ℕ
  | 0, _ => 0
  | k + 1, t => if poll t then pollRun poll k (t + 1) + 1 else 0

/-- pollRun reaches the full budget exactly when every polled index up
to the budget sees true. -/
theorem pollRun_eq_iff (poll : ℕ → Bool) :
    ∀ (k t : ℕ), pollRun poll k t = k ↔ ∀ j, t ≤ j → j < t + k → poll j = true := by
  intro k
  induction k with
  | zero =>
    intro t
    simp [pollRun]
    intro j h1 h2
    omega
  | succ k ih =>
    intro t
    rw [pollRun]
    by_cases hp : poll t
    · rw [if_pos hp]
      constructor
      · intro h j hj1 hj2
        rcases eq_or_lt_of_le hj1 with heq | hlt
        · rw [← heq]; exact hp
        · exact (ih (t + 1)).mp (by omega) j (by omega) (by omega)
      · intro h
        have := (ih (t + 1)).mpr (fun j hj1 hj2 => h j (by omega) (by omega))
        omega
    · rw [if_neg hp]
      constructor
      · intro h
        omega
      · intro h
        exact absurd (h t (le_refl t) (by omega)) (by simpa using hp)

/-- A replicated train event contributes no add_experience event. -/
theorem filter_addExp_replicate (n m : ℕ) :
    (List.replicate n (Event.trainUpdate m)).filter isAddExperience = [] := by
  induction n with
  | zero => rfl
  | succ n ih => simp [List.replicate_succ, List.filter_cons, isAddExperience, ih]

/-- Every executed step contributes exactly one add_experience event. -/
theorem stepEvents_one_add (cfg : LoopConfig) (dsig : ℕ → Bool) (t mem : ℕ) :
    ((stepEvents cfg dsig t mem).filter isAddExperience).length = 1 := by
  unfold stepEvents trainEvents
  cases cfg.family <;> split_ifs <;>
    simp [List.filter_append, List.filter_cons, isAddExperience, filter_addExp_replicate]

/-- The executed-step count of a run is the initial count plus the
number of consecutive successful polls. -/
theorem runFrom_executed (cfg : LoopConfig) (poll dsig : ℕ → Bool) :
    ∀ (k t : ℕ) (s : LoopState),
      executedSteps (runFrom cfg poll dsig k t s)
        = executedSteps s + pollRun poll k t := by
  intro k
  induction k with
  | zero =>
    intro t s
    simp [runFrom, pollRun]
  | succ k ih =>
    intro t s
    rw [runFrom, pollRun]
    by_cases hp : poll t
    · rw [if_pos hp, if_pos hp, ih]
      have hone : executedSteps (stepBody cfg dsig t s) = executedSteps s + 1 := by
        unfold executedSteps stepBody
        simp [List.filter_append, stepEvents_one_add]
      rw [hone]
      omega
    · rw [if_neg hp, if_neg hp]
      simp [executedSteps]

/-- The finalization of training_loop appends exactly the log flush, the
verification rollout and the flag emission to the step-loop trace. -/
theorem training_loop_events (cfg : LoopConfig) (poll dsig : ℕ → Bool) :
    (training_loop cfg poll dsig).events
      = (runFrom cfg poll dsig cfg.steps_training 0 initialLoopState).events
        ++ [Event.saveLogs, Event.policyTest,
            Event.emitCompleted
              ((runFrom cfg poll dsig cfg.steps_training 0
                initialLoopState).training_completed)] := rfl

/-- The flag training_loop reports is the flag the step loop produced. -/
theorem training_loop_completed (cfg : LoopConfig) (poll dsig : ℕ → Bool) :
    (training_loop cfg poll dsig).training_completed
      = (runFrom cfg poll dsig cfg.steps_training 0
          initialLoopState).training_completed := rfl

/-- Every train_policy call of one executed step sees the memory size
that step produced, and the gates guarantee it is at least batch_size
for the DQN family always, and for the generic family whenever
batch_size is at most steps_exploration + 1. -/
theorem stepEvents_memOK (cfg : LoopConfig) (dsig : ℕ → Bool) (t : ℕ)
    (hgate : cfg.family = Family.dqn
      ∨ (cfg.family = Family.generic
          ∧ cfg.batch_size ≤ cfg.steps_exploration + 1)) :
    (stepEvents cfg dsig t (t + 1)).all (memOKb cfg.batch_size) = true := by
  rw [List.all_eq_true]
  intro e he
  unfold stepEvents at he
  rcases List.mem_append.mp he with he1 | heD
  · rcases List.mem_append.mp he1 with he2 | heC
    · rcases List.mem_append.mp he2 with heA | heB
      · rw [List.mem_singleton.mp heA]
        rfl
      · unfold trainEvents at heB
        rcases hgate with hdqn | ⟨hgen, hle⟩
        · rw [hdqn] at heB
          by_cases hc : cfg.batch_size < t
          · rw [if_pos hc] at heB
            rw [(List.mem_replicate.mp heB).2]
            simp only [memOKb, decide_eq_true_eq]
            omega
          · rw [if_neg hc] at heB
            cases heB
        · rw [hgen] at heB
          by_cases hc : cfg.steps_exploration ≤ t
          · rw [if_pos hc] at heB
            rw [(List.mem_replicate.mp heB).2]
            simp only [memOKb, decide_eq_true_eq]
            omega
          · rw [if_neg hc] at heB
            cases heB
    · split at heC
      · rw [List.mem_singleton.mp heC]
        rfl
      · cases heC
  · split at heD
    · rw [List.mem_singleton.mp heD]
      rfl
    · cases heD

/-- The invariant propagates through the whole step loop: the memory size
entering step t is exactly t, so every later train call stays safe. -/
theorem runFrom_memOK (cfg : LoopConfig) (poll dsig : ℕ → Bool)
    (hgate : cfg.family = Family.dqn
      ∨ (cfg.family = Family.generic
          ∧ cfg.batch_size ≤ cfg.steps_exploration + 1)) :
    ∀ (k t : ℕ) (s : LoopState), s.memorySize = t →
      s.events.all (memOKb cfg.batch_size) = true →
      (runFrom cfg poll dsig k t s).events.all (memOKb cfg.batch_size) = true := by
  intro k
  induction k with
  | zero =>
    intro t s _ he
    simpa [runFrom] using he
  | succ k ih =>
    intro t s hm he
    rw [runFrom]
    by_cases hp : poll t
    · rw [if_pos hp]
      apply ih (t + 1) (stepBody cfg dsig t s)
      · show s.memorySize + 1 = t + 1
        omega
      · show (s.events ++ stepEvents cfg dsig t (s.memorySize + 1)).all
            (memOKb cfg.batch_size) = true
        rw [hm, List.all_append, he, stepEvents_memOK cfg dsig t hgate]
        rfl
    · rw [if_neg hp]
      simpa using he

/-- With tau = 1 the soft update copies the source parameters exactly. -/
theorem softUpdate_tau_one : ∀ (source target : List ℚ),
    source.length = target.length → softUpdate 1 source target = source
  | [], _, _ => rfl
  | a :: as, [], h => by simp at h
  | a :: as, b :: bs, h => by
    have ih := softUpdate_tau_one as bs (by simpa using h)
    show (1 * a + (1 - 1) * b) :: softUpdate 1 as bs = a :: as
    rw [ih]
    norm_num

/-- With tau = 0 the soft update leaves the target parameters unchanged. -/
theorem softUpdate_tau_zero : ∀ (source target : List ℚ),
    source.length = target.length → softUpdate 0 source target = target
  | [], [], _ => rfl
  | [], b :: bs, h => by simp at h
  | a :: as, [], h => by simp at h
  | a :: as, b :: bs, h => by
    have ih := softUpdate_tau_zero as bs (by simpa using h)
    show (0 * a + (1 - 0) * b) :: softUpdate 0 as bs = b :: bs
    rw [ih]
    norm_num

/-- Train events never contain an evaluation trigger. -/
theorem evalTrigger_not_mem_trainEvents (cfg : LoopConfig) (t0 mem t n : ℕ) :
    Event.evalTrigger t n ∉ trainEvents cfg t0 mem := by
  unfold trainEvents
  cases cfg.family <;> split <;> simp [List.mem_replicate]

/-- An evaluation trigger occurs among the events of step t0 exactly for
the trigger condition of line 234, with the configured episode count. -/
theorem mem_evalTrigger_stepEvents (cfg : LoopConfig) (dsig : ℕ → Bool)
    (t0 mem t n : ℕ) :
    Event.evalTrigger t n ∈ stepEvents cfg dsig t0 mem ↔
      t = t0 ∧ (t0 + 1) % cfg.evaluation_interval = 0
        ∧ n = cfg.number_eval_episodes := by
  unfold stepEvents
  by_cases hE : (t0 + 1) % cfg.evaluation_interval = 0 <;>
    by_cases hL : dsig t0 = true ∧ (t0 + 1) % cfg.log_interval = 0 <;>
      simp [hE, hL, evalTrigger_not_mem_trainEvents]

/-- An evaluation trigger is in the trace of an uncancelled step loop
exactly when its step index lies in the executed range and satisfies the
trigger condition. -/
theorem mem_evalTrigger_runFrom (cfg : LoopConfig) (poll dsig : ℕ → Bool)
    (hpoll : ∀ j, poll j = true) (t n : ℕ) :
    ∀ (k t0 : ℕ) (s : LoopState),
      Event.evalTrigger t n ∈ (runFrom cfg poll dsig k t0 s).events ↔
        (Event.evalTrigger t n ∈ s.events
          ∨ (t0 ≤ t ∧ t < t0 + k ∧ (t + 1) % cfg.evaluation_interval = 0
              ∧ n = cfg.number_eval_episodes)) := by
  intro k
  induction k with
  | zero =>
    intro t0 s
    rw [runFrom]
    constructor
    · exact Or.inl
    · rintro (h | ⟨h1, h2, _⟩)
      · exact h
      · omega
  | succ k ih =>
    intro t0 s
    rw [runFrom, if_pos (hpoll t0), ih (t0 + 1) (stepBody cfg dsig t0 s)]
    have hstep : Event.evalTrigger t n ∈ (stepBody cfg dsig t0 s).events ↔
        (Event.evalTrigger t n ∈ s.events
          ∨ (t = t0 ∧ (t0 + 1) % cfg.evaluation_interval = 0
              ∧ n = cfg.number_eval_episodes)) := by
      show Event.evalTrigger t n
          ∈ s.events ++ stepEvents cfg dsig t0 (s.memorySize + 1) ↔ _
      rw [List.mem_append, mem_evalTrigger_stepEvents]
    rw [hstep]
    constructor
    · rintro ((hs | ⟨rfl, hc, hn⟩) | ⟨h1, h2, hc, hn⟩)
      · exact Or.inl hs
      · exact Or.inr ⟨le_refl t, by omega, hc, hn⟩
      · exact Or.inr ⟨by omega, by omega, hc, hn⟩
    · rintro (hs | ⟨h1, h2, hc, hn⟩)
      · exact Or.inl (Or.inl hs)
      · by_cases ht : t = t0
        · subst ht
          exact Or.inl (Or.inr ⟨rfl, hc, hn⟩)
        · exact Or.inr ⟨by omega, by omega, hc, hn⟩

/-- A record kept by the deduplication carries a key of the input. -/
theorem groupLast_key_mem : ∀ (recs : List (ℕ × ℚ)) (p : ℕ × ℚ),
    p ∈ groupLast recs → p.1 ∈ recs.map Prod.fst := by
  intro recs
  induction recs with
  | nil =>
    intro p hp
    exact absurd hp (by simp [groupLast])
  | cons r rest ih =>
    intro p hp
    rw [groupLast] at hp
    rw [List.map_cons]
    by_cases h : r.1 ∈ rest.map Prod.fst
    · rw [if_pos h] at hp
      exact List.mem_cons_of_mem _ (ih p hp)
    · rw [if_neg h] at hp
      rcases List.mem_cons.mp hp with heq | hmem
      · rw [heq]
        exact List.mem_cons_self _ _
      · exact List.mem_cons_of_mem _ (ih p hmem)

/-- A key absent from the input filters to the empty record list. -/
theorem filter_key_nil (recs : List (ℕ × ℚ)) (k : ℕ)
    (h : k ∉ recs.map Prod.fst) :
    recs.filter (fun r => decide (r.1 = k)) = [] := by
  rw [List.filter_eq_nil_iff]
  intro p hp
  simp only [decide_eq_true_eq]
  intro heq
  exact h (heq ▸ List.mem_map_of_mem Prod.fst hp)

/-- A key present in the input filters to a nonempty record list. -/
theorem filter_key_ne_nil (recs : List (ℕ × ℚ)) (k : ℕ)
    (h : k ∈ recs.map Prod.fst) :
    recs.filter (fun r => decide (r.1 = k)) ≠ [] := by
  rcases List.mem_map.mp h with ⟨p, hp, hk⟩
  exact List.ne_nil_of_mem (List.mem_filter.mpr ⟨hp, by simp [hk]⟩)

/-- Prepending to a nonempty list keeps its last element. -/
theorem getLast?_cons_ne_nil {α : Type} (a : α) :
    ∀ (l : List α), l ≠ [] → (a :: l).getLast? = l.getLast?
  | [], h => absurd rfl h
  | _ :: _, _ => List.getLast?_cons_cons

/-- The deduplication keeps, for each key, exactly the last record the
input holds for that key. -/
theorem groupLast_spec : ∀ (recs : List (ℕ × ℚ)) (k : ℕ) (v : ℚ),
    ((k, v) ∈ groupLast recs ↔
      (recs.filter (fun r => decide (r.1 = k))).getLast? = some (k, v)) := by
  intro recs
  induction recs with
  | nil =>
    intro k v
    simp [groupLast]
  | cons r rest ih =>
    intro k v
    rw [groupLast, List.filter_cons]
    by_cases hk : r.1 = k
    · have hd : decide (r.1 = k) = true := by simp [hk]
      rw [hd, if_pos rfl]
      by_cases hmem : r.1 ∈ rest.map Prod.fst
      · rw [if_pos hmem,
          getLast?_cons_ne_nil r _ (filter_key_ne_nil rest k (hk ▸ hmem))]
        exact ih k v
      · rw [if_neg hmem, filter_key_nil rest k (hk ▸ hmem)]
        constructor
        · intro hp
          rcases List.mem_cons.mp hp with heq | hmem2
          · show [r].getLast? = some (k, v)
            rw [show [r].getLast? = some r from rfl, ← heq]
          · exact absurd (groupLast_key_mem rest (k, v) hmem2) (hk ▸ hmem)
        · intro hl
          have hr : r = (k, v) := by
            have hs : some r = some (k, v) := by simpa using hl
            exact Option.some.inj hs
          rw [hr]
          exact List.mem_cons_self _ _
    · have hd : decide (r.1 = k) = false := by simp [hk]
      rw [hd, if_neg Bool.false_ne_true]
      by_cases hmem : r.1 ∈ rest.map Prod.fst
      · rw [if_pos hmem]
        exact ih k v
      · rw [if_neg hmem, List.mem_cons]
        constructor
        · rintro (heq | hmem2)
          · exact absurd (congrArg Prod.fst heq).symm hk
          · exact (ih k v).mp hmem2
        · intro hl
          exact Or.inr ((ih k v).mpr hl)

/-- After deduplication the timestep keys are pairwise distinct. -/
theorem groupLast_keys_nodup : ∀ recs : List (ℕ × ℚ),
    ((groupLast recs).map Prod.fst).Nodup := by
  intro recs
  induction recs with
  | nil => simp [groupLast]
  | cons r rest ih =>
    rw [groupLast]
    by_cases h : r.1 ∈ rest.map Prod.fst
    · rw [if_pos h]
      exact ih
    · rw [if_neg h, List.map_cons]
      refine List.nodup_cons.mpr ⟨?_, ih⟩
      intro hmem
      rcases List.mem_map.mp hmem with ⟨p, hp, hkey⟩
      exact h (hkey ▸ groupLast_key_mem rest p hp)

/-! ### Claim theorems -/

/-- C4: for the epsilon-greedy value family, after k decay applications
the exploration rate equals max(epsilon_min, epsilon_0 * decay^k) with
epsilon_0 = 1; after at least one application (which is when the rate is
consulted for random-action selection) it never falls below epsilon_min;
and the rate carried by the training loop for a DQN configuration equals
the recurrence value at steps_training - steps_exploration applications. -/
theorem exploration_schedule_spec (eps_min decay : ℚ)
    (hd0 : 0 ≤ decay) (hd1 : decay ≤ 1) (hm0 : 0 ≤ eps_min) (hm1 : eps_min ≤ 1) :
    (∀ k : ℕ, explorationRateAfter eps_min decay k = max eps_min (decay ^ k))
    ∧ (∀ k : ℕ, 1 ≤ k → eps_min ≤ explorationRateAfter eps_min decay k)
    ∧ (∀ (cfg : LoopConfig) (poll dsig : ℕ → Bool),
        cfg.family = Family.dqn → cfg.epsilon_min = eps_min →
        cfg.epsilon_decay = decay → (∀ t, poll t = true) →
        (training_loop cfg poll dsig).exploration_rate
          = explorationRateAfter eps_min decay
              (cfg.steps_training - cfg.steps_exploration)) := by
  have closed : ∀ k : ℕ, explorationRateAfter eps_min decay k
      = max eps_min (decay ^ k) := by
    intro k
    induction k with
    | zero =>
      show (1 : ℚ) = max eps_min (decay ^ 0)
      rw [pow_zero, max_eq_right hm1]
    | succ n ih =>
      have h1 : eps_min * decay ≤ eps_min := mul_le_of_le_one_right hm0 hd1
      rw [explorationRateAfter, ih, epsilonStep, max_mul_of_nonneg _ _ hd0,
        ← max_assoc, max_eq_left h1, ← pow_succ]
  refine ⟨closed, ?_, ?_⟩
  · intro k hk
    match k, hk with
    | n + 1, _ => exact le_max_left _ _
  · intro cfg poll dsig hfam hmin hdec hpoll
    have h0 : initialLoopState.exploration_rate
        = explorationRateAfter cfg.epsilon_min cfg.epsilon_decay
            (0 - cfg.steps_exploration) := by
      have : 0 - cfg.steps_exploration = 0 := by omega
      rw [this]; rfl
    have h := runFrom_rate cfg poll dsig hfam hpoll cfg.steps_training 0
      initialLoopState h0
    have heq : (training_loop cfg poll dsig).exploration_rate
        = (runFrom cfg poll dsig cfg.steps_training 0 initialLoopState).exploration_rate := rfl
    rw [heq, h, hmin, hdec]
    have : 0 + cfg.steps_training = cfg.steps_training := by omega
    rw [this]

/-- Closed witness for the schedule theorem at epsilon_min = 1/10,
decay = 1/2, k = 3. -/
theorem exploration_schedule_spec_witness :
    explorationRateAfter (1/10) (1/2) 3 = max (1/10) (((1:ℚ)/2) ^ 3) :=
  (exploration_schedule_spec (1/10) (1/2) (by norm_num) (by norm_num)
    (by norm_num) (by norm_num)).1 3

/-- C5: one DQN train_policy call increments the learning-step counter
by exactly one, always steps the online network, and overwrites the
target network with the just-updated online network exactly when the
incremented counter is a multiple of target_update_freq, leaving it
untouched otherwise; over n calls the counter advances by exactly n.
The call receives no environment-step information, so the cadence is
independent of the environment-step counter and of the multiplicity G. -/
theorem dqn_hard_sync {P : Type} (optStep : P → P) (a : DQNAgent P) :
    ((DQN.train_policy optStep a).learn_counter = a.learn_counter + 1)
    ∧ ((DQN.train_policy optStep a).net = optStep a.net)
    ∧ ((a.learn_counter + 1) % a.target_update_freq = 0 →
        (DQN.train_policy optStep a).target_net = optStep a.net)
    ∧ (¬ (a.learn_counter + 1) % a.target_update_freq = 0 →
        (DQN.train_policy optStep a).target_net = a.target_net)
    ∧ (∀ (optSteps : ℕ → P → P) (n : ℕ),
        (DQN.trainN optSteps a n).learn_counter = a.learn_counter + n) := by
  refine ⟨?_, ?_, ?_, ?_, ?_⟩
  · unfold DQN.train_policy; split <;> rfl
  · unfold DQN.train_policy; split <;> rfl
  · intro h; unfold DQN.train_policy; rw [if_pos h]
  · intro h; unfold DQN.train_policy; rw [if_neg h]
  · intro optSteps n
    induction n with
    | zero => rfl
    | succ n ih =>
      show (DQN.train_policy (optSteps n) (DQN.trainN optSteps a n)).learn_counter
        = a.learn_counter + (n + 1)
      have hstep : ∀ (f : P → P) (b : DQNAgent P),
          (DQN.train_policy f b).learn_counter = b.learn_counter + 1 := by
        intro f b; unfold DQN.train_policy; split <;> rfl
      rw [hstep, ih]
      omega

/-- Closed witness for the DQN hard-sync theorem: a concrete agent over
natural-number parameters with counter 0 and frequency 2, stepped once
via successor. -/
theorem dqn_hard_sync_witness :
    ((DQN.train_policy Nat.succ ⟨0, 5, 0, 2⟩).learn_counter = 0 + 1)
    ∧ ((DQN.train_policy Nat.succ ⟨0, 5, 0, 2⟩).net = Nat.succ 0)
    ∧ ((0 + 1) % 2 = 0 → (DQN.train_policy Nat.succ ⟨0, 5, 0, 2⟩).target_net = Nat.succ 0)
    ∧ (¬ (0 + 1) % 2 = 0 → (DQN.train_policy Nat.succ ⟨0, 5, 0, 2⟩).target_net = 5)
    ∧ (∀ (optSteps : ℕ → ℕ → ℕ) (n : ℕ),
        (DQN.trainN optSteps ⟨0, 5, 0, 2⟩ n).learn_counter = 0 + n) :=
  dqn_hard_sync Nat.succ ⟨0, 5, 0, 2⟩

/-- C6: the soft target synchronization used by DDPG (actor and critic
targets) and SAC (critic target) sets each target parameter to
tau * source + (1 - tau) * target; with tau = 1 the targets become exact
copies of the sources, with tau = 0 they are unchanged; and the DDPG and
SAC training updates apply exactly this operation to their target
parameter collections. -/
theorem soft_sync_spec (tau : ℚ) (source target : List ℚ)
    (h : source.length = target.length) :
    softUpdate 1 source target = source
    ∧ softUpdate 0 source target = target
    ∧ (∀ (i : ℕ) (h1 : i < source.length) (h2 : i < target.length)
        (h3 : i < (softUpdate tau source target).length),
        (softUpdate tau source target).get ⟨i, h3⟩
          = tau * source.get ⟨i, h1⟩ + (1 - tau) * target.get ⟨i, h2⟩)
    ∧ (∀ (cs as : List ℚ → List ℚ) (a : DDPGAgent),
        (DDPG.train_policy cs as a).target_critic_net
            = softUpdate a.tau (cs a.critic_net) a.target_critic_net
          ∧ (DDPG.train_policy cs as a).target_actor_net
            = softUpdate a.tau (as a.actor_net) a.target_actor_net)
    ∧ (∀ (cs as : List ℚ → List ℚ) (als : ℚ → ℚ) (a : SACAgent),
        (SAC.train_policy cs as als a).target_critic_net
          = if (a.learn_counter + 1) % a.policy_update_freq = 0
            then softUpdate a.tau (cs a.critic_net) a.target_critic_net
            else a.target_critic_net) := by
  refine ⟨softUpdate_tau_one source target h, softUpdate_tau_zero source target h,
    ?_, ?_, ?_⟩
  · intro i h1 h2 h3
    simp [softUpdate, List.get_eq_getElem, List.getElem_zipWith]
  · intro cs as a
    exact ⟨rfl, rfl⟩
  · intro cs as als a
    rfl

/-- Closed witness for the soft-sync theorem on concrete one-parameter
collections. -/
theorem soft_sync_spec_witness :
    softUpdate 1 [(4:ℚ)] [(2:ℚ)] = [(4:ℚ)] ∧ softUpdate 0 [(4:ℚ)] [(2:ℚ)] = [(2:ℚ)] :=
  ⟨(soft_sync_spec (1/2) [(4:ℚ)] [(2:ℚ)] rfl).1,
   (soft_sync_spec (1/2) [(4:ℚ)] [(2:ℚ)] rfl).2.1⟩

/-- C7: the SAC critic update computes, per batch element, the bootstrap
target reward * reward_scale + gamma * (1 - done) * (min(Q1t, Q2t) at
(next_state, next_action) - alpha * log_pi), with the next action and
its log-probability taken from the current (non-target) actor at the
next state; and the whole update forms both mean-squared-error losses
against that shared target, sums them, and applies one optimization
step driven by the summed loss. -/
theorem sac_critic_update_spec {S A : Type} (actor_net : S → A × ℚ × A)
    (critic_net target_critic_net : S → A → ℚ × ℚ)
    (alpha gamma reward_scale : ℚ) (optStep : List ℚ → ℚ → List ℚ)
    (critic_params : List ℚ) (states : List S) (actions : List A)
    (rewards : List ℚ) (next_states : List S) (dones : List ℚ) :
    (∀ (i : ℕ) (h1 : i < rewards.length) (h2 : i < dones.length)
        (h3 : i < next_states.length)
        (h4 : i < (SAC.qTarget gamma reward_scale rewards dones
          (SAC.targetQValues actor_net target_critic_net alpha next_states)).length),
        (SAC.qTarget gamma reward_scale rewards dones
            (SAC.targetQValues actor_net target_critic_net alpha next_states)).get ⟨i, h4⟩
          = rewards.get ⟨i, h1⟩ * reward_scale
            + gamma * (1 - dones.get ⟨i, h2⟩)
              * (min (target_critic_net (next_states.get ⟨i, h3⟩)
                        (actor_net (next_states.get ⟨i, h3⟩)).1).1
                    (target_critic_net (next_states.get ⟨i, h3⟩)
                        (actor_net (next_states.get ⟨i, h3⟩)).1).2
                  - alpha * (actor_net (next_states.get ⟨i, h3⟩)).2.1))
    ∧ SAC.update_critic actor_net critic_net target_critic_net alpha gamma
        reward_scale optStep critic_params states actions rewards next_states dones
      = (optStep critic_params
           (mseLoss ((List.zipWith critic_net states actions).map Prod.fst)
              (SAC.qTarget gamma reward_scale rewards dones
                (SAC.targetQValues actor_net target_critic_net alpha next_states))
            + mseLoss ((List.zipWith critic_net states actions).map Prod.snd)
              (SAC.qTarget gamma reward_scale rewards dones
                (SAC.targetQValues actor_net target_critic_net alpha next_states))),
         (mseLoss ((List.zipWith critic_net states actions).map Prod.fst)
            (SAC.qTarget gamma reward_scale rewards dones
              (SAC.targetQValues actor_net target_critic_net alpha next_states)),
          mseLoss ((List.zipWith critic_net states actions).map Prod.snd)
            (SAC.qTarget gamma reward_scale rewards dones
              (SAC.targetQValues actor_net target_critic_net alpha next_states)),
          mseLoss ((List.zipWith critic_net states actions).map Prod.fst)
            (SAC.qTarget gamma reward_scale rewards dones
              (SAC.targetQValues actor_net target_critic_net alpha next_states))
          + mseLoss ((List.zipWith critic_net states actions).map Prod.snd)
            (SAC.qTarget gamma reward_scale rewards dones
              (SAC.targetQValues actor_net target_critic_net alpha next_states))),
         SAC.qTarget gamma reward_scale rewards dones
           (SAC.targetQValues actor_net target_critic_net alpha next_states)) := by
  refine ⟨?_, rfl⟩
  intro i h1 h2 h3 h4
  simp [SAC.qTarget, SAC.targetQValues, List.get_eq_getElem, List.getElem_zipWith,
    List.getElem_map, List.getElem_zip]

/-- Closed witness for the SAC critic-target theorem on a one-element
batch with constant networks: the target evaluates to
reward * scale + gamma * (1 - done) * (min(Q1t, Q2t) - alpha * log_pi). -/
theorem sac_critic_update_spec_witness :
    (SAC.qTarget 1 2 [(10:ℚ)] [(0:ℚ)]
        (SAC.targetQValues (fun _ : ℕ => ((0:ℕ), (1:ℚ), (0:ℕ)))
          (fun _ _ => ((3:ℚ), (5:ℚ))) 1 [0])).get ⟨0, by decide⟩
      = 10 * 2 + 1 * (1 - 0) * (min (3:ℚ) 5 - 1 * 1) :=
  (sac_critic_update_spec (fun _ : ℕ => ((0:ℕ), (1:ℚ), (0:ℕ)))
      (fun _ _ => ((2:ℚ), (2:ℚ))) (fun _ _ => ((3:ℚ), (5:ℚ)))
      1 1 2 (fun l _ => l) [] [0] [0] [10] [0] [0]).1
    0 (by decide) (by decide) (by decide) (by decide)

/-- C1 (amended): every train_policy call of the loop sees a memory that
already holds at least batch_size transitions, unconditionally for the
epsilon-greedy value family (gate total_step_counter > batch_size), and
for the generic off-policy family (gate
total_step_counter >= steps_exploration) provided
batch_size <= steps_exploration + 1. -/
theorem memory_batch_invariant (cfg : LoopConfig) (poll dsig : ℕ → Bool)
    (hgate : cfg.family = Family.dqn
      ∨ (cfg.family = Family.generic
          ∧ cfg.batch_size ≤ cfg.steps_exploration + 1)) :
    (training_loop cfg poll dsig).events.all (memOKb cfg.batch_size) = true := by
  rw [training_loop_events, List.all_append,
    runFrom_memOK cfg poll dsig hgate cfg.steps_training 0 initialLoopState rfl rfl]
  rfl

/-- Configuration exhibiting the violation of C1 as stated: generic
family, steps_exploration = 0, batch_size = 2, one training step. -/
def cfgC1x : LoopConfig :=
  { steps_training := 1
    evaluation_interval := 5
    log_interval := 5
    number_eval_episodes := 1
    batch_size := 2
    steps_exploration := 0
    G := 1
    max_steps_per_batch := 1
    epsilon_min := 0
    epsilon_decay := 1
    family := Family.generic }

/-- Counterexample to C1 as stated: with the generic off-policy family,
steps_exploration = 0 and batch_size = 2, the very first step issues a
train_policy call while the memory holds a single transition. -/
theorem memory_batch_invariant_cex :
    cfgC1x.family = Family.generic
    ∧ Event.trainUpdate 1
        ∈ (training_loop cfgC1x (fun _ => true) (fun _ => false)).events
    ∧ (training_loop cfgC1x (fun _ => true) (fun _ => false)).events.all
        (memOKb cfgC1x.batch_size) = false := by
  decide

/-- Witness for the amended C1 theorem at a concrete DQN configuration. -/
theorem memory_batch_invariant_witness :
    (training_loop
        { steps_training := 4
          evaluation_interval := 10
          log_interval := 10
          number_eval_episodes := 1
          batch_size := 1
          steps_exploration := 1
          G := 1
          max_steps_per_batch := 1
          epsilon_min := 0
          epsilon_decay := 1
          family := Family.dqn }
        (fun _ => true) (fun _ => false)).events.all (memOKb 1) = true :=
  memory_batch_invariant _ (fun _ => true) (fun _ => false) (Or.inl rfl)

/-- C2: the completion flag is true exactly when no polled iteration saw
the running flag false, equivalently exactly when all steps_training
iterations executed; and on every termination path the trace ends with
the log flush, the policy-verification rollout, and the emission of that
flag, in this order. -/
theorem completion_flag_spec (cfg : LoopConfig) (poll dsig : ℕ → Bool) :
    ((training_loop cfg poll dsig).training_completed = true ↔
      ∀ t, t < cfg.steps_training → poll t = true)
    ∧ (executedSteps (training_loop cfg poll dsig) = cfg.steps_training ↔
        (training_loop cfg poll dsig).training_completed = true)
    ∧ (training_loop cfg poll dsig).events
      = (runFrom cfg poll dsig cfg.steps_training 0 initialLoopState).events
        ++ [Event.saveLogs, Event.policyTest,
            Event.emitCompleted ((training_loop cfg poll dsig).training_completed)] := by
  have hiff := runFrom_completed cfg poll dsig cfg.steps_training 0 initialLoopState
  have hflag : ((training_loop cfg poll dsig).training_completed = true ↔
      ∀ t, t < cfg.steps_training → poll t = true) := by
    rw [training_loop_completed, hiff]
    constructor
    · rintro ⟨_, h2⟩ t ht
      exact h2 t (Nat.zero_le t) (by omega)
    · intro h
      exact ⟨rfl, fun j _ hj2 => h j (by omega)⟩
  refine ⟨hflag, ?_, rfl⟩
  have hexec : executedSteps (training_loop cfg poll dsig)
      = pollRun poll cfg.steps_training 0 := by
    unfold executedSteps
    rw [training_loop_events, List.filter_append, List.length_append]
    have h3 := runFrom_executed cfg poll dsig cfg.steps_training 0 initialLoopState
    unfold executedSteps at h3
    rw [h3]
    simp [isAddExperience, initialLoopState]
  rw [hexec, hflag, pollRun_eq_iff]
  constructor
  · intro h t ht
    exact h t (Nat.zero_le t) (by omega)
  · intro h j _ hj2
    exact h j (by omega)

/-- Configuration for exercising the cancellation path: a five-step run
of the generic family with no training or evaluation activity. -/
def cfgC3x : LoopConfig :=
  { steps_training := 5
    evaluation_interval := 10
    log_interval := 10
    number_eval_episodes := 1
    batch_size := 1
    steps_exploration := 10
    G := 1
    max_steps_per_batch := 1
    epsilon_min := 0
    epsilon_decay := 1
    family := Family.generic }

/-- C3 at its failing input: the worker thread starts with the running
flag true and the loop receives that boolean by value, so after the
controller requests a stop (which flips only the field of the thread object)
the loop still executes all five remaining steps and reports the run as
completed rather than exiting within one step marked incomplete. -/
theorem cancellation_not_observed :
    (TrainingThread.stop ⟨true⟩).is_running = false
    ∧ (TrainingThread.run ⟨true⟩ cfgC3x (fun _ => false)).training_completed = true
    ∧ executedSteps (TrainingThread.run ⟨true⟩ cfgC3x (fun _ => false)) = 5 := by
  decide

/-- C8: in an uncancelled run the Evaluation Runner is invoked exactly
at the steps whose 1-indexed completed-step count is a multiple of
evaluation_interval, with the configured episode count; and the record
deduplication keeps, for each distinct global timestep, exactly the most
recently observed record, leaving pairwise distinct timestep keys. -/
theorem evaluation_trigger_spec (cfg : LoopConfig) (poll dsig : ℕ → Bool)
    (hpoll : ∀ j, poll j = true) :
    (∀ t n, Event.evalTrigger t n ∈ (training_loop cfg poll dsig).events ↔
        (t < cfg.steps_training ∧ (t + 1) % cfg.evaluation_interval = 0
          ∧ n = cfg.number_eval_episodes))
    ∧ (∀ (recs : List (ℕ × ℚ)) (k : ℕ) (v : ℚ),
        ((k, v) ∈ groupLast recs ↔
          (recs.filter (fun r => decide (r.1 = k))).getLast? = some (k, v)))
    ∧ (∀ recs : List (ℕ × ℚ), ((groupLast recs).map Prod.fst).Nodup) := by
  refine ⟨?_, groupLast_spec, groupLast_keys_nodup⟩
  intro t n
  rw [training_loop_events, List.mem_append,
    mem_evalTrigger_runFrom cfg poll dsig hpoll t n cfg.steps_training 0
      initialLoopState]
  simp [initialLoopState]

/-- Configuration for the evaluation-trigger witness: ten steps with
evaluation every five. -/
def cfgC8w : LoopConfig :=
  { steps_training := 10
    evaluation_interval := 5
    log_interval := 100
    number_eval_episodes := 1
    batch_size := 1
    steps_exploration := 100
    G := 1
    max_steps_per_batch := 1
    epsilon_min := 0
    epsilon_decay := 1
    family := Family.generic }

/-- Closed witness for the evaluation-trigger theorem: step index 4
(completed-step count 5) triggers evaluation in a ten-step uncancelled
run with interval five. -/
theorem evaluation_trigger_spec_witness :
    Event.evalTrigger 4 1
        ∈ (training_loop cfgC8w (fun _ => true) (fun _ => false)).events ↔
      (4 < 10 ∧ (4 + 1) % 5 = 0 ∧ 1 = 1) :=
  (evaluation_trigger_spec cfgC8w (fun _ => true) (fun _ => false)
    (fun _ => rfl)).1 4 1

/-- C9: for every variant, restore raises when an expected parameter file
is absent at the conventional path, never substituting defaults; and
for every variant, persist auto-creates a missing target directory and then
writes the parameter file, reporting no error. -/
theorem persistence_error_spec :
    (∀ (a : DQNAgent (List ℚ)) (fn fp : String) (fs : FileSystem),
        fs.files.lookup (fp ++ "/" ++ fn ++ "_net.pth") = none →
        DQN.load_models a fn fp fs
          = Except.error (fp ++ "/" ++ fn ++ "_net.pth"))
    ∧ (∀ (a : DDPGAgent) (fn fp : String) (fs : FileSystem),
        fs.files.lookup (fp ++ "/" ++ fn ++ "_actor.pht") = none →
        DDPG.load_models a fn fp fs
          = Except.error (fp ++ "/" ++ fn ++ "_actor.pht"))
    ∧ (∀ (a : DDPGAgent) (fn fp : String) (fs : FileSystem),
        fs.files.lookup (fp ++ "/" ++ fn ++ "_critic.pht") = none →
        ∃ e, DDPG.load_models a fn fp fs = Except.error e)
    ∧ (∀ (a : SACAgent) (fn fp : String) (fs : FileSystem),
        fs.files.lookup (fp ++ "/" ++ fn ++ "_actor.pht") = none →
        SAC.load_models a fn fp fs
          = Except.error (fp ++ "/" ++ fn ++ "_actor.pht"))
    ∧ (∀ (a : SACAgent) (fn fp : String) (fs : FileSystem),
        fs.files.lookup (fp ++ "/" ++ fn ++ "_critic.pht") = none →
        ∃ e, SAC.load_models a fn fp fs = Except.error e)
    ∧ (∀ (a : DQNAgent (List ℚ)) (fn fp : String) (fs : FileSystem),
        fp ∈ (DQN.save_models a fn fp fs).dirs
          ∧ (DQN.save_models a fn fp fs).files.lookup
              (fp ++ "/" ++ fn ++ "_net.pth") = some a.net)
    ∧ (∀ (a : DDPGAgent) (fn fp : String) (fs : FileSystem),
        fp ∈ (DDPG.save_models a fn fp fs).dirs)
    ∧ (∀ (a : SACAgent) (fn fp : String) (fs : FileSystem),
        fp ∈ (SAC.save_models a fn fp fs).dirs) := by
  have hdir : ∀ (fs : FileSystem) (fp : String), fp ∈ (ensureDir fs fp).dirs := by
    intro fs fp
    unfold ensureDir
    by_cases h : fp ∈ fs.dirs
    · rw [if_pos h]
      exact h
    · rw [if_neg h]
      exact List.mem_cons_self _ _
  refine ⟨?_, ?_, ?_, ?_, ?_, ?_, ?_, ?_⟩
  · intro a fn fp fs h
    simp [DQN.load_models, torch_load, h]
  · intro a fn fp fs h
    simp [DDPG.load_models, torch_load, h]
  · intro a fn fp fs h
    cases hactor : torch_load fs (fp ++ "/" ++ fn ++ "_actor.pht") with
    | error e =>
      refine ⟨e, ?_⟩
      unfold DDPG.load_models
      rw [hactor]
    | ok ap =>
      refine ⟨fp ++ "/" ++ fn ++ "_critic.pht", ?_⟩
      unfold DDPG.load_models
      rw [hactor]
      have hc : torch_load fs (fp ++ "/" ++ fn ++ "_critic.pht")
          = Except.error (fp ++ "/" ++ fn ++ "_critic.pht") := by
        simp [torch_load, h]
      rw [hc]
  · intro a fn fp fs h
    simp [SAC.load_models, torch_load, h]
  · intro a fn fp fs h
    cases hactor : torch_load fs (fp ++ "/" ++ fn ++ "_actor.pht") with
    | error e =>
      refine ⟨e, ?_⟩
      unfold SAC.load_models
      rw [hactor]
    | ok ap =>
      refine ⟨fp ++ "/" ++ fn ++ "_critic.pht", ?_⟩
      unfold SAC.load_models
      rw [hactor]
      have hc : torch_load fs (fp ++ "/" ++ fn ++ "_critic.pht")
          = Except.error (fp ++ "/" ++ fn ++ "_critic.pht") := by
        simp [torch_load, h]
      rw [hc]
  · intro a fn fp fs
    refine ⟨hdir fs fp, ?_⟩
    simp [DQN.save_models, writeFile, List.lookup]
  · intro a fn fp fs
    exact hdir fs fp
  · intro a fn fp fs
    exact hdir fs fp

/-- Closed witness for the persistence theorem: restoring a DQN agent
from an empty file system raises with the expected path. -/
theorem persistence_error_spec_witness :
    DQN.load_models ⟨[], [], 0, 1⟩ "m" "p" ⟨[], []⟩
      = Except.error ("p" ++ "/" ++ "m" ++ "_net.pth") :=
  persistence_error_spec.1 ⟨[], [], 0, 1⟩ "m" "p" ⟨[], []⟩ rfl

/-- C10: SAC persist writes exactly the actor and critic files, and SAC
restore, when it succeeds, rewrites only the actor and critic networks:
the target critic, the temperature scalar log_alpha, and every other
agent field keep the values they held before the call. -/
theorem sac_persistence_frame (a : SACAgent) (fn fp : String) (fs : FileSystem) :
    ((SAC.save_models a fn fp fs).files
        = (fp ++ "/" ++ fn ++ "_critic.pht", a.critic_net)
          :: (fp ++ "/" ++ fn ++ "_actor.pht", a.actor_net) :: fs.files)
    ∧ (∀ b : SACAgent, SAC.load_models a fn fp fs = Except.ok b →
        b.target_critic_net = a.target_critic_net
        ∧ b.log_alpha = a.log_alpha
        ∧ b.learn_counter = a.learn_counter
        ∧ b.policy_update_freq = a.policy_update_freq
        ∧ b.tau = a.tau ∧ b.gamma = a.gamma
        ∧ b.reward_scale = a.reward_scale) := by
  constructor
  · show (writeFile (writeFile (ensureDir fs fp) _ _) _ _).files = _
    unfold writeFile
    rw [ensureDir_files]
  intro b h
  unfold SAC.load_models at h
  cases hactor : torch_load fs (fp ++ "/" ++ fn ++ "_actor.pht") with
  | error e =>
    rw [hactor] at h
    cases h
  | ok ap =>
    rw [hactor] at h
    cases hcritic : torch_load fs (fp ++ "/" ++ fn ++ "_critic.pht") with
    | error e =>
      rw [hcritic] at h
      cases h
    | ok cp =>
      rw [hcritic] at h
      cases h
      exact ⟨rfl, rfl, rfl, rfl, rfl, rfl, rfl⟩

/-- Closed witness for the SAC persistence frame theorem: loading from a
file system holding both files leaves the target critic and log_alpha of
the concrete agent untouched. -/
theorem sac_persistence_frame_witness :
    (SAC.load_models ⟨[1], [2], [3], 0, 4, 1, 1/2, 99/100, 1⟩ "m" "p"
        ⟨[("p" ++ "/" ++ "m" ++ "_actor.pht", [7]),
          ("p" ++ "/" ++ "m" ++ "_critic.pht", [8])], ["p"]⟩
      = Except.ok ⟨[7], [8], [3], 0, 4, 1, 1/2, 99/100, 1⟩)
    ∧ ([3] : List ℚ) = [3] ∧ (0 : ℚ) = 0 :=
  ⟨by rfl,
   ((sac_persistence_frame ⟨[1], [2], [3], 0, 4, 1, 1/2, 99/100, 1⟩ "m" "p"
      ⟨[("p" ++ "/" ++ "m" ++ "_actor.pht", [7]),
        ("p" ++ "/" ++ "m" ++ "_critic.pht", [8])], ["p"]⟩).2
     ⟨[7], [8], [3], 0, 4, 1, 1/2, 99/100, 1⟩ (by rfl)).1,
   ((sac_persistence_frame ⟨[1], [2], [3], 0, 4, 1, 1/2, 99/100, 1⟩ "m" "p"
      ⟨[("p" ++ "/" ++ "m" ++ "_actor.pht", [7]),
        ("p" ++ "/" ++ "m" ++ "_critic.pht", [8])], ["p"]⟩).2
     ⟨[7], [8], [3], 0, 4, 1, 1/2, 99/100, 1⟩ (by rfl)).2.1⟩

end ReinforceUI
